import Mathlib

/-!
Shallow embedding of the seizure-detector sketch
(`src/seizure_detector/seizure_detector.ino`) and proofs about its
alarm state machine, capture buffer and logging logic.

Machine integers are modelled as `Nat` with explicit reduction modulo
`2 ^ 32` where the C code works in `unsigned long` (AVR: 32 bits).
The raw analogue readings are `Nat` (the code reads 10-bit ADC values
into `int`), and the capture buffer cells are `Int` (the array is
`int16_t`).
-/

namespace SeizureDetector

/-! ## Configuration constants (source lines 63-72) -/

/-- Sample frequency in Hz (source line 63). -/
def freq : Nat := 64

/-- FFT window size.  The sketch takes it from the ffft library; the
source comment on line 63 ("128 samples = 1 second collection") fixes
it at 128. -/
def FFT_N : Nat := 128

/-- Lowest monitored spectrum channel (source line 66). -/
def mon_freq_ch_min : Nat := 6

/-- Highest monitored spectrum channel (source line 67). -/
def mon_freq_ch_max : Nat := 10

/-- Alarm threshold (source line 68). -/
def mon_thresh : Nat := 7

/-- Time over threshold before a warning is raised, ms (source line 69). -/
def mon_warn_millis : Nat := 2000

/-- Time over threshold before the full alarm is raised, ms (source line 70). -/
def mon_alarm_millis : Nat := 5000

/-- Debounce time below threshold before the alarm flags clear, ms
(source line 71). -/
def mon_reset_millis : Nat := 2000

/-- SD card logging period, ms (source line 72). -/
def log_millis : Nat := 60000

/-! ## 32-bit unsigned arithmetic -/

/-- Modulus of the AVR `unsigned long` type. -/
def u32Mod : Nat := 4294967296

/-- 32-bit unsigned subtraction `a - b`, as computed by C on
`unsigned long` operands: the result is `(a - b) mod 2 ^ 32`. -/
def usub32 (a b : Nat) : Nat :=
  (a % u32Mod + (u32Mod - b % u32Mod)) % u32Mod

/-- 32-bit unsigned addition, as computed by C on `unsigned long`
operands. -/
def uadd32 (a b : Nat) : Nat := (a + b) % u32Mod

theorem usub32_self (a : Nat) : usub32 a a = 0 := by
  simp only [usub32, u32Mod]
  omega

theorem usub32_eq_sub {a b : Nat} (hba : b ≤ a) (ha : a < u32Mod) :
    usub32 a b = a - b := by
  simp only [u32Mod] at ha
  simp only [usub32, u32Mod]
  omega

/-! ## Alarm state (source lines 75-81)

The global flags of the sketch.  `mon_reset_state` (source line 78) is
set once in `setup` and never read afterwards, so it is omitted.  The
auxiliary timestamps keep their source names:
`mon_lastreset_millis` is the time the value fell below the alarm
threshold, `mon_thresh_millis` the time the threshold was first
exceeded, `last_log_millis` the time of the last SD-card log. -/

structure MonState where
  mon_thresh_exceeded : Bool
  mon_warn_state : Bool
  mon_alarm_state : Bool
  mon_lastreset_millis : Nat
  mon_thresh_millis : Nat
  last_log_millis : Nat
deriving DecidableEq, Repr

/-- State of the globals right after `setup` (source lines 75-81 and
148-150): all flags clear, `mon_lastreset_millis = now()` where `t` is
the RTC reading at startup. -/
def initMonState (t : Nat) : MonState :=
  { mon_thresh_exceeded := false
    mon_warn_state := false
    mon_alarm_state := false
    mon_lastreset_millis := t
    mon_thresh_millis := 0
    last_log_millis := 0 }

/-- Which serial report a window produces (source lines 266, 273, 276,
278, 282): the message printed by the alarm-decision block. -/
inductive MonReport where
  | preAlarm
  | warning
  | alarm
  | eventReset
  | quiet
deriving DecidableEq, Repr

/-- One evaluation of the alarm-decision block (source lines 264-294)
on a completed window, together with the report it prints.

Inputs: `maxChan` is the peak monitored-band value, `ms` the value
`millis()` returns during this window (the code calls `millis()` up to
three times in the block; one completed window is modelled with a
single reading), `nowS` the value `now()` returns (the Time library
RTC clock, in seconds).  Note that the event-reset branch (source line
283) stores `now()`, not `millis()`, into `mon_lastreset_millis`. -/
def monStepR (st : MonState) (maxChan ms nowS : Nat) : MonState × MonReport :=
  if mon_thresh ≤ maxChan then
    let st1 := if st.mon_thresh_exceeded then st
      else { st with mon_thresh_exceeded := true, mon_thresh_millis := ms }
    if mon_alarm_millis ≤ usub32 ms st1.mon_thresh_millis then
      ({ st1 with mon_alarm_state := true, mon_warn_state := false }, .alarm)
    else if mon_warn_millis ≤ usub32 ms st1.mon_thresh_millis then
      ({ st1 with mon_warn_state := true }, .warning)
    else (st1, .preAlarm)
  else
    if st.mon_thresh_exceeded then
      ({ st with mon_lastreset_millis := nowS, mon_thresh_exceeded := false },
        .eventReset)
    else if mon_reset_millis < usub32 ms st.mon_lastreset_millis then
      ({ st with mon_warn_state := false, mon_alarm_state := false }, .quiet)
    else (st, .quiet)

/-- The state part of `monStepR`. -/
def monStep (st : MonState) (maxChan ms nowS : Nat) : MonState :=
  (monStepR st maxChan ms nowS).1

/-- The four alarm states of the specification, derived from the
sketch flags: `mon_alarm_state` means Alarm, otherwise
`mon_warn_state` means Warning, otherwise `mon_thresh_exceeded` means
PreAlarm, otherwise Idle. -/
inductive AlarmState where
  | Idle
  | PreAlarm
  | Warning
  | Alarm
deriving DecidableEq, Repr

def alarmStateOf (st : MonState) : AlarmState :=
  if st.mon_alarm_state then .Alarm
  else if st.mon_warn_state then .Warning
  else if st.mon_thresh_exceeded then .PreAlarm
  else .Idle

/-- Level driven onto the piezo buzzer at the end of the main loop
(source lines 324-327): a continuous tone when `mon_alarm_state`, a
short pip when `mon_warn_state`, silence otherwise. -/
inductive AlarmLevel where
  | silence
  | warningPip
  | alarmTone
deriving DecidableEq, Repr

def alertLevel (st : MonState) : AlarmLevel :=
  if st.mon_alarm_state then .alarmTone
  else if st.mon_warn_state then .warningPip
  else .silence

/-- One window of inputs to the alarm engine. -/
structure WindowIn where
  maxChan : Nat
  ms : Nat
  nowS : Nat
deriving DecidableEq, Repr

/-- Run of the alarm-decision block over a sequence of completed
windows. -/
def monRun (st : MonState) : List WindowIn → MonState
  | [] => st
  | w :: ws => monRun (monStep st w.maxChan w.ms w.nowS) ws

/-- The SD-card logging guard (source line 297):
`mon_thresh_exceeded || (millis() > (last_log_millis + log_millis))`,
evaluated on the flags left by the alarm-decision block.  Both the
addition and the comparison are 32-bit unsigned. -/
def shouldLog (st : MonState) (ms : Nat) : Bool :=
  st.mon_thresh_exceeded ||
    decide (uadd32 st.last_log_millis log_millis < ms % u32Mod)

/-! ## Capture buffer (source lines 84-87, 168-182, 238-244) -/

/-- The FFT capture buffer: the `volatile byte position` write cursor
and the `int16_t capture[FFT_N]` array, the array modelled as a
function from indices to cell contents. -/
structure CaptureBuf where
  position : Nat
  capture : Nat → Int

/-- Producer write as performed by the timer ISR (source lines
172-181): do nothing when the cursor has reached `FFT_N`, otherwise
store at the cursor and advance it. -/
def tryWrite (b : CaptureBuf) (s : Int) : CaptureBuf :=
  if FFT_N ≤ b.position then b
  else { position := b.position + 1
         capture := fun j => if j = b.position then s else b.capture j }

/-- A sequence of producer writes. -/
def writeAll (b : CaptureBuf) (ss : List Int) : CaptureBuf :=
  ss.foldl tryWrite b

/-- The full test of the consumer (source line 238). -/
def isFull (b : CaptureBuf) : Bool := b.position = FFT_N

/-- The window the consumer copies out of a full buffer. -/
def window (b : CaptureBuf) : List Int := (List.range FFT_N).map b.capture

/-- Consumer drain (source lines 240-244): copy the contents out
(`fft_input(capture, bfly_buff)`), then reset the cursor to zero. -/
def drain (b : CaptureBuf) : List Int × CaptureBuf :=
  (window b, { b with position := 0 })

/-- One set of raw channel readings taken by the ISR. -/
structure RawTick where
  x : Nat
  y : Nat
  z : Nat
deriving DecidableEq, Repr

/-- One firing of `ISR(TIMER1_COMPA_vect)` (source lines 168-182):
read the three channels and offer their combined value
`(x + y + z) / 3` (C integer division on non-negative `int`s) to the
capture buffer. -/
def isrTick (b : CaptureBuf) (x y z : Nat) : CaptureBuf :=
  tryWrite b (((x + y + z) / 3 : Nat) : Int)

/-- A run of ISR firings. -/
def isrRun (b : CaptureBuf) (ts : List RawTick) : CaptureBuf :=
  ts.foldl (fun b t => isrTick b t.x t.y t.z) b

/-! ## Monitored-band maximum (source lines 257-262) -/

/-- The peak value over the monitored channels, computed exactly as
the loop does: start from `spectrum[mon_freq_ch_min]`, then for
`i = mon_freq_ch_min` to `mon_freq_ch_max` inclusive take the larger
value. -/
def maxChanOf (spectrum : Nat → Nat) : Nat :=
  (List.range' mon_freq_ch_min (mon_freq_ch_max - mon_freq_ch_min + 1)).foldl
    (fun m i => if m < spectrum i then spectrum i else m)
    (spectrum mon_freq_ch_min)

/-! ## SD-card logging and the full loop body (source lines 233-328) -/

/-- Tag column of a CSV log row (source lines 306-309): the row says
`warning` when `mon_warn_state`, else `*ALARM*` when
`mon_alarm_state`, else `poss` when `mon_thresh_exceeded`, else
blank. -/
inductive LogTag where
  | warningTag
  | alarmTag
  | possTag
  | blankTag
deriving DecidableEq, Repr

def logTagOf (st : MonState) : LogTag :=
  if st.mon_warn_state then .warningTag
  else if st.mon_alarm_state then .alarmTag
  else if st.mon_thresh_exceeded then .possTag
  else .blankTag

/-- One CSV row appended to `SEIZURE.CSV` (source lines 301-321):
clock reading, tag, the spectrum, and the raw capture samples. -/
structure LogRecord where
  stamp : Nat
  tag : LogTag
  spectrumRow : List Nat
  rawRow : List Int
deriving DecidableEq, Repr

def mkRecord (nowS : Nat) (st : MonState) (spectrum : Nat → Nat)
    (capture : Nat → Int) : LogRecord :=
  { stamp := nowS
    tag := logTagOf st
    spectrumRow := (List.range (FFT_N / 2)).map spectrum
    rawRow := (List.range FFT_N).map capture }

/-- Whole-system state visible to the main loop: the alarm globals,
the capture buffer, the rows so far appended to the SD card, and a
count of storage errors reported over serial by `error_P` (source
lines 99-108; the halt in `error_P` is commented out in the source, so
an error only prints and returns). -/
structure SysState where
  mon : MonState
  buf : CaptureBuf
  records : List LogRecord
  storageErrors : Nat

/-- One iteration of `loop()` (source lines 233-328) in which the
capture buffer is observed full, parameterized by the spectral
transform `fft` (the ffft library, external to this sketch) and by
whether the SD card accepts the write (`storageOk`).  Mirrors the
source order: FFT, cursor reset, band maximum, alarm decision, then
the logging block (which on failure calls `error_P` and continues, and
updates `last_log_millis` unconditionally at source line 322), and is
a no-op when the buffer is not full. -/
def loopBody (storageOk : Bool) (fft : (Nat → Int) → Nat → Nat)
    (ss : SysState) (ms nowS : Nat) : SysState :=
  if ss.buf.position = FFT_N then
    let spectrum := fft ss.buf.capture
    let buf1 : CaptureBuf := { ss.buf with position := 0 }
    let st1 := monStep ss.mon (maxChanOf spectrum) ms nowS
    if shouldLog st1 ms then
      if storageOk then
        { mon := { st1 with last_log_millis := ms }
          buf := buf1
          records := ss.records ++ [mkRecord nowS st1 spectrum buf1.capture]
          storageErrors := ss.storageErrors }
      else
        { mon := { st1 with last_log_millis := ms }
          buf := buf1
          records := ss.records
          storageErrors := ss.storageErrors + 1 }
    else
      { mon := st1, buf := buf1, records := ss.records
        storageErrors := ss.storageErrors }
  else ss

/-! ## Consumer trace with interleaved ISR ticks (for the handoff
protocol)

During `fft_input` (source lines 240-242) the cursor still reads
`FFT_N`, so an ISR firing in that span hits the guard on source line
172 and does nothing.  After `position = 0` (source line 244) the ISR
is re-armed; the raw-sample log read happens later, at source lines
316-318.  `consumerTrace` records what the FFT read and the raw-log
read each see, with the ISR firings of each span made explicit. -/

structure TraceOut where
  fftRead : List Int
  logRead : List Int
  bufOut : CaptureBuf

def consumerTrace (b : CaptureBuf) (ticksDuringFft ticksBeforeLog : List RawTick) :
    TraceOut :=
  let b1 := isrRun b ticksDuringFft
  let fftRead := window b1
  let b2 : CaptureBuf := { b1 with position := 0 }
  let b3 := isrRun b2 ticksBeforeLog
  { fftRead := fftRead, logRead := window b3, bufOut := b3 }

/-! ## Invariant state of an uninterrupted escalation -/

/-- The alarm globals during an episode in which the band has stayed
at or above threshold since time `t0` and the engine last ran at time
`t`: the exceeded flag is up, `mon_thresh_millis` holds `t0`, and the
warn and alarm flags are determined by the elapsed time `t - t0`.
Proof-side characterization used by the escalation lemmas. -/
def escState (st0 : MonState) (t0 t : Nat) : MonState :=
  { st0 with
    mon_thresh_exceeded := true
    mon_thresh_millis := t0
    mon_warn_state :=
      decide (mon_warn_millis ≤ t - t0 ∧ t - t0 < mon_alarm_millis)
    mon_alarm_state := decide (mon_alarm_millis ≤ t - t0) }

end SeizureDetector

/-! # Theorems -/

namespace SeizureDetector

/-! ## Shared lemmas about the capture buffer and the step function -/

theorem tryWrite_full {b : CaptureBuf} (s : Int) (h : FFT_N ≤ b.position) :
    tryWrite b s = b := by
  simp [tryWrite, h]

theorem tryWrite_position {b : CaptureBuf} (s : Int) (h : b.position < FFT_N) :
    (tryWrite b s).position = b.position + 1 := by
  simp [tryWrite, Nat.not_le.mpr h]

theorem tryWrite_capture {b : CaptureBuf} (s : Int) (h : b.position < FFT_N) :
    (tryWrite b s).capture =
      fun j => if j = b.position then s else b.capture j := by
  simp [tryWrite, Nat.not_le.mpr h]

theorem if_lt_eq_max (a b : Nat) : (if a < b then b else a) = max a b := by
  rcases Nat.lt_or_ge a b with h | h
  · simp [h, Nat.max_eq_right h.le]
  · simp [Nat.not_lt.mpr h, Nat.max_eq_left h]

/-! ## C6 — the monitored-band maximum includes both endpoint bins -/

/-- Claim C6: the value fed to the alarm decision is the maximum of
the spectrum over the inclusive bin range 6..10 — both endpoint bins
participate in the maximum. -/
theorem c6_band_maximum (s : Nat → Nat) :
    maxChanOf s =
      max (s 6) (max (s 7) (max (s 8) (max (s 9) (s 10)))) := by
  have hr : List.range' mon_freq_ch_min (mon_freq_ch_max - mon_freq_ch_min + 1)
      = [6, 7, 8, 9, 10] := rfl
  simp only [maxChanOf]
  rw [hr]
  simp only [List.foldl, if_lt_eq_max, mon_freq_ch_min]
  omega

/-! ## C10 — a dip always clears the exceeded flag, a re-exceedance
starts a fresh event -/

/-- Claim C10: a below-threshold window clears the internal exceeded
flag in that same window (leaving the warn/alarm output flags as they
were); the next at-or-above-threshold window starts a fresh event —
`mon_thresh_millis` is set to that window's time, the report is the
pre-alarm one (elapsed restarts at zero), and the warn/alarm flags of
the earlier episode carry over unchanged; and while below threshold
with the exceeded flag already clear, the output flags drop only once
the debounce comparison fires. -/
theorem c10_dip_and_fresh_event (st : MonState) (e ms nowS : Nat) :
    (e < mon_thresh → (monStep st e ms nowS).mon_thresh_exceeded = false)
    ∧ (st.mon_thresh_exceeded = false → mon_thresh ≤ e →
        monStepR st e ms nowS =
          ({ st with mon_thresh_exceeded := true, mon_thresh_millis := ms },
            MonReport.preAlarm))
    ∧ (e < mon_thresh → st.mon_thresh_exceeded = true →
        monStepR st e ms nowS =
          ({ st with mon_thresh_exceeded := false, mon_lastreset_millis := nowS },
            MonReport.eventReset))
    ∧ (e < mon_thresh → st.mon_thresh_exceeded = false →
        mon_reset_millis < usub32 ms st.mon_lastreset_millis →
        monStepR st e ms nowS =
          ({ st with mon_warn_state := false, mon_alarm_state := false },
            MonReport.quiet)) := by
  refine ⟨?_, ?_, ?_, ?_⟩
  · intro he
    simp [monStep, monStepR, Nat.not_le.mpr he]
    split_ifs <;> simp_all
  · intro hx he
    simp [monStepR, he, hx, usub32_self, mon_alarm_millis, mon_warn_millis]
  · intro he hx
    simp [monStepR, Nat.not_le.mpr he, hx]
  · intro he hx hr
    simp [monStepR, Nat.not_le.mpr he, hx, hr]

/-- Concrete instance of C10: from a state still carrying the warn and
alarm flags of an earlier episode, a fresh exceedance at time 1234
yields the pre-alarm report with both flags still up. -/
theorem c10_dip_and_fresh_event_witness :
    mon_thresh ≤ 9
    ∧ monStepR ⟨false, true, true, 40, 10, 0⟩ 9 1234 77 =
        (⟨true, true, true, 40, 1234, 0⟩, MonReport.preAlarm)
    ∧ (monStep ⟨true, true, true, 40, 10, 0⟩ 3 1234 77).mon_thresh_exceeded
        = false := by
  refine ⟨by decide, ?_, ?_⟩
  · exact (c10_dip_and_fresh_event ⟨false, true, true, 40, 10, 0⟩ 9 1234 77).2.1
      rfl (by decide)
  · exact (c10_dip_and_fresh_event ⟨true, true, true, 40, 10, 0⟩ 3 1234 77).1
      (by decide)


/-! ## C7 — sub-threshold input on an Idle engine is a no-op -/

theorem monStep_idle_fixed (st : MonState) (h1 : st.mon_thresh_exceeded = false)
    (h2 : st.mon_warn_state = false) (h3 : st.mon_alarm_state = false)
    (e ms nowS : Nat) (he : e < mon_thresh) : monStep st e ms nowS = st := by
  obtain ⟨a, b, c, d, tm, ll⟩ := st
  simp only at h1 h2 h3
  subst h1; subst h2; subst h3
  simp [monStep, monStepR, Nat.not_le.mpr he]

theorem monRun_idle_fixed : ∀ (ws : List WindowIn) (st : MonState),
    st.mon_thresh_exceeded = false → st.mon_warn_state = false →
    st.mon_alarm_state = false → (∀ w ∈ ws, w.maxChan < mon_thresh) →
    monRun st ws = st := by
  intro ws
  induction ws with
  | nil => intro st _ _ _ _; rfl
  | cons w ws ih =>
      intro st h1 h2 h3 hw
      have hstep := monStep_idle_fixed st h1 h2 h3 w.maxChan w.ms w.nowS
        (hw w (List.mem_cons_self w ws))
      rw [monRun, hstep]
      exact ih st h1 h2 h3 (fun x hx => hw x (List.mem_cons_of_mem w hx))

/-- Claim C7: starting from any Idle state (no flags set), any number
of sub-threshold windows leaves the globals literally unchanged, so
the derived state stays Idle after every window and the level driven
to the buzzer stays silence throughout. -/
theorem c7_idle_idempotent (st : MonState) (h1 : st.mon_thresh_exceeded = false)
    (h2 : st.mon_warn_state = false) (h3 : st.mon_alarm_state = false)
    (ws : List WindowIn) (hw : ∀ w ∈ ws, w.maxChan < mon_thresh) :
    monRun st ws = st ∧ alarmStateOf (monRun st ws) = AlarmState.Idle
      ∧ alertLevel (monRun st ws) = AlarmLevel.silence := by
  have hrun := monRun_idle_fixed ws st h1 h2 h3 hw
  refine ⟨hrun, ?_, ?_⟩
  · rw [hrun]; simp [alarmStateOf, h1, h2, h3]
  · rw [hrun]; simp [alertLevel, h2, h3]

/-- Concrete instance of C7: the freshly initialized engine fed three
sub-threshold windows is unchanged, Idle, and silent. -/
theorem c7_idle_idempotent_witness :
    monRun (initMonState 11) [⟨3, 100, 11⟩, ⟨0, 5000, 14⟩, ⟨6, 9000, 18⟩]
        = initMonState 11
    ∧ alarmStateOf
        (monRun (initMonState 11) [⟨3, 100, 11⟩, ⟨0, 5000, 14⟩, ⟨6, 9000, 18⟩])
        = AlarmState.Idle
    ∧ alertLevel
        (monRun (initMonState 11) [⟨3, 100, 11⟩, ⟨0, 5000, 14⟩, ⟨6, 9000, 18⟩])
        = AlarmLevel.silence :=
  c7_idle_idempotent (initMonState 11) rfl rfl rfl
    [⟨3, 100, 11⟩, ⟨0, 5000, 14⟩, ⟨6, 9000, 18⟩] (by decide)

/-! ## C3 — the debounced reset compares mixed clock units

The event-reset branch (source line 283) stores `now()` — the Time
library RTC clock, in seconds since 1970 — into
`mon_lastreset_millis`, whose own declaration comment (source line 79)
and every use (source line 289) treat it as a `millis()` value.  The
debounce comparison `millis() - mon_lastreset_millis > mon_reset_millis`
therefore subtracts an epoch-seconds value from a milliseconds uptime
value and bears no relation to the wall-clock time spent below
threshold. -/

/-- Claim C3 fails on the code: with the RTC at epoch second
1500000000 and an uptime of 1499999000 ms (about 17.4 days), a
below-threshold window records `mon_lastreset_millis = 1500000000`
(seconds); at the next window 2500 ms of wall clock later the
comparison computes `(1500001500 - 1500000000) mod 2 ^ 32 = 1500`,
not greater than 2000, so the warning flag is NOT cleared although
2500 ms ≥ `mon_reset_millis` of continuous below-threshold wall-clock
time have elapsed. -/
theorem c3_reset_units_bug :
    (monStep ⟨true, true, false, 0, 90000, 0⟩ 3 1499999000 1500000000).mon_lastreset_millis
        = 1500000000
    ∧ (monStep ⟨true, true, false, 0, 90000, 0⟩ 3 1499999000 1500000000).mon_thresh_exceeded
        = false
    ∧ (monStep (monStep ⟨true, true, false, 0, 90000, 0⟩ 3 1499999000 1500000000)
        3 1500001500 1500000002).mon_warn_state = true
    ∧ usub32 1500001500 1500000000 = 1500
    ∧ mon_reset_millis < 1500001500 - 1499999000 := by
  decide

/-! ## C4 — the log-throttle comparison is not rollover safe

The escalation comparisons (source lines 270 and 274) do use the
modular subtraction `millis() - mon_thresh_millis`, but the logging
throttle (source line 297) is written
`millis() > (last_log_millis + log_millis)` — an addition followed by
an unsigned comparison, which gives the wrong answer once `millis()`
has wrapped, and the reset comparison (source line 289) subtracts a
value recorded in RTC seconds (see C3). -/

/-- Claim C4 fails on the code: with the last log written at
4294900000 ms (just before the 32-bit `millis()` rollover) and the
current window at 10000 ms after the wrap, the true elapsed time is
`(10000 - 4294900000) mod 2 ^ 32 = 77296` ms, beyond the 60000 ms
throttle, yet the guard of source line 297 computes
`10000 > 4294960000`, i.e. false, and the periodic log is suppressed.
A rollover-safe modular subtraction (`usub32`) yields the correct
duration at the same input. -/
theorem c4_log_throttle_rollover_bug :
    shouldLog ⟨false, false, false, 0, 0, 4294900000⟩ 10000 = false
    ∧ usub32 10000 4294900000 = 77296
    ∧ log_millis ≤ usub32 10000 4294900000 := by
  decide

/-! ## C5 — the raw-sample log read happens after the cursor reset

Source line 244 resets `position` (re-arming the ISR) right after the
FFT input copy, but the logging block reads `capture[]` again at
source lines 316-318.  An ISR firing between the reset and that read
overwrites capture cells, so the logged raw samples need not be the
samples of the drained window.  (While the buffer is still full the
ISR guard of source line 172 does make interleaved firings harmless,
which is why the FFT read itself is safe.) -/

/-- Claim C5 fails on the code: start from a full buffer whose every
sample is 5.  An ISR firing during the FFT copy is a no-op (the read
still sees 5 at index 0), but after the cursor reset a single ISR
firing with readings (30,30,30) overwrites index 0, and the raw-log
read performed afterwards sees 30 there — the consumer's second read
of the window happens after the reset and can observe producer
overwrites. -/
theorem c5_raw_log_torn_read :
    (consumerTrace ⟨FFT_N, fun _ => 5⟩ [⟨7, 7, 7⟩] [⟨30, 30, 30⟩]).fftRead.getD 0 0 = 5
    ∧ (consumerTrace ⟨FFT_N, fun _ => 5⟩ [⟨7, 7, 7⟩] [⟨30, 30, 30⟩]).logRead.getD 0 0 = 30
    ∧ (consumerTrace ⟨FFT_N, fun _ => 5⟩ [⟨7, 7, 7⟩] [⟨30, 30, 30⟩]).logRead
        ≠ (consumerTrace ⟨FFT_N, fun _ => 5⟩ [⟨7, 7, 7⟩] [⟨30, 30, 30⟩]).fftRead := by
  decide

/-! ## C8 — the stored sample is the floor of the three-channel mean -/

/-- Claim C8 as stated fails on the code: the ISR stores
`(x + y + z) / 3` in C integer arithmetic, so for readings (1,1,2) the
stored sample is 1, which is not the arithmetic mean 4/3. -/
theorem c8_exact_mean_counterexample :
    ((isrRun ⟨0, fun _ => 0⟩ [⟨1, 1, 2⟩]).capture 0 : ℚ) ≠ ((1:ℚ) + 1 + 2) / 3 := by
  norm_num [isrRun, isrTick, tryWrite, FFT_N]


/-! ## C2 — capture-buffer write/drain protocol -/

theorem writeAll_spec : ∀ (ss : List Int) (b : CaptureBuf),
    b.position + ss.length ≤ FFT_N →
    (writeAll b ss).position = b.position + ss.length
    ∧ ∀ i, (writeAll b ss).capture i =
        if b.position ≤ i ∧ i < b.position + ss.length
        then ss.getD (i - b.position) 0 else b.capture i := by
  intro ss
  induction ss with
  | nil =>
      intro b h
      refine ⟨rfl, fun i => ?_⟩
      rw [if_neg (by simp only [List.length_nil]; omega)]
      rfl
  | cons s ss ih =>
      intro b h
      simp only [List.length_cons] at h
      have hpos : b.position < FFT_N := by omega
      have hb : (tryWrite b s).position = b.position + 1 := tryWrite_position s hpos
      have hc : (tryWrite b s).capture
          = fun j => if j = b.position then s else b.capture j :=
        tryWrite_capture s hpos
      obtain ⟨ih1, ih2⟩ := ih (tryWrite b s) (by rw [hb]; omega)
      have hw : writeAll b (s :: ss) = writeAll (tryWrite b s) ss := rfl
      rw [hw]
      constructor
      · rw [ih1, hb, List.length_cons]; omega
      · intro i
        rw [ih2 i, hb, hc, List.length_cons]
        by_cases h1 : i = b.position
        · subst h1
          rw [if_neg (by omega), if_pos (by omega)]
          simp
        · by_cases h2 : b.position + 1 ≤ i ∧ i < b.position + 1 + ss.length
          · rw [if_pos h2, if_pos (by omega)]
            have hsucc : i - b.position = (i - (b.position + 1)) + 1 := by omega
            rw [hsucc, List.getD_cons_succ]
          · rw [if_neg h2, if_neg (by omega)]
            simp only [h1, if_false]

/-- Claim C2: from an empty buffer, a sequence of up to `FFT_N` writes
stores every sample, in write order, at indices 0 up to the sequence
length, and leaves the cursor at the number of writes; cells past the
written range are untouched; a write against a full cursor is a no-op
on the whole buffer state (so the writer never writes past index
`FFT_N`); and after `FFT_N` writes the drain returns exactly the
written samples in order, resets the cursor to zero, and does not
disturb the stored cells. -/
theorem c2_capture_buffer (c0 : Nat → Int) (ss : List Int)
    (h : ss.length ≤ FFT_N) :
    (writeAll ⟨0, c0⟩ ss).position = ss.length
    ∧ (∀ i, i < ss.length → (writeAll ⟨0, c0⟩ ss).capture i = ss.getD i 0)
    ∧ (∀ i, ss.length ≤ i → (writeAll ⟨0, c0⟩ ss).capture i = c0 i)
    ∧ (∀ (b : CaptureBuf) (s : Int), FFT_N ≤ b.position → tryWrite b s = b)
    ∧ (ss.length = FFT_N →
        (drain (writeAll ⟨0, c0⟩ ss)).1 = ss
        ∧ (drain (writeAll ⟨0, c0⟩ ss)).2.position = 0
        ∧ (drain (writeAll ⟨0, c0⟩ ss)).2.capture = (writeAll ⟨0, c0⟩ ss).capture) := by
  obtain ⟨h1, h2⟩ := writeAll_spec ss ⟨0, c0⟩ (by simpa using h)
  have hpos : (writeAll ⟨0, c0⟩ ss).position = ss.length := by simpa using h1
  have hin : ∀ i, i < ss.length → (writeAll ⟨0, c0⟩ ss).capture i = ss.getD i 0 := by
    intro i hi
    have := h2 i
    rw [if_pos (by simpa using hi)] at this
    simpa using this
  have hout : ∀ i, ss.length ≤ i → (writeAll ⟨0, c0⟩ ss).capture i = c0 i := by
    intro i hi
    have := h2 i
    rw [if_neg (by simp; omega)] at this
    simpa using this
  refine ⟨hpos, hin, hout, fun b s hb => tryWrite_full s hb, fun hN => ?_⟩
  refine ⟨?_, rfl, rfl⟩
  apply List.ext_getElem
  · simp [drain, window, hN]
  · intro i hi1 hi2
    simp only [drain, window, List.getElem_map, List.getElem_range]
    rw [hin i hi2, List.getD_eq_getElem ss 0 hi2]

set_option maxRecDepth 4096 in
/-- Concrete instance of C2: 128 writes of the sample 3 into the empty
buffer all land, the cursor reaches 128, a further write is a no-op,
and the drain returns the 128 samples and re-arms the cursor. -/
theorem c2_capture_buffer_witness :
    (List.replicate 128 (3:Int)).length ≤ FFT_N
    ∧ (writeAll ⟨0, fun _ => 0⟩ (List.replicate 128 (3:Int))).position
        = (List.replicate 128 (3:Int)).length
    ∧ (drain (writeAll ⟨0, fun _ => 0⟩ (List.replicate 128 (3:Int)))).1
        = List.replicate 128 (3:Int)
    ∧ tryWrite (writeAll ⟨0, fun _ => 0⟩ (List.replicate 128 (3:Int))) 9
        = writeAll ⟨0, fun _ => 0⟩ (List.replicate 128 (3:Int)) := by
  have h := c2_capture_buffer (fun _ => 0) (List.replicate 128 (3:Int)) (by decide)
  refine ⟨by decide, h.1, (h.2.2.2.2 (by decide)).1, ?_⟩
  exact h.2.2.2.1 _ 9 (by rw [h.1]; decide)

/-! ## C8 — what the ISR stores per tick, and its immutability -/

theorem isrRun_eq_writeAll (b : CaptureBuf) (ts : List RawTick) :
    isrRun b ts
      = writeAll b (ts.map fun t => (((t.x + t.y + t.z) / 3 : Nat) : Int)) := by
  simp [isrRun, writeAll, List.foldl_map, isrTick]

/-- Claim C8, amended: the sample the ISR stores on tick `i` is the
integer quotient `(x + y + z) / 3` — the floor of the arithmetic mean
of the three channel readings of that tick (exact whenever the sum is
divisible by 3), as the bounds state; it is produced by that one tick,
and any longer run of ticks leaves it unchanged (immutable once
written, until a drain resets the cursor). -/
theorem c8_floor_mean (b : CaptureBuf) (ts : List RawTick)
    (h : b.position + ts.length ≤ FFT_N) (i : Nat) (hi : i < ts.length) :
    ((isrRun b ts).capture (b.position + i)
        = ((((ts.getD i ⟨0, 0, 0⟩).x + (ts.getD i ⟨0, 0, 0⟩).y
            + (ts.getD i ⟨0, 0, 0⟩).z) / 3 : Nat) : Int))
    ∧ 3 * (isrRun b ts).capture (b.position + i)
        ≤ ((ts.getD i ⟨0, 0, 0⟩).x : Int) + (ts.getD i ⟨0, 0, 0⟩).y
            + (ts.getD i ⟨0, 0, 0⟩).z
    ∧ ((ts.getD i ⟨0, 0, 0⟩).x : Int) + (ts.getD i ⟨0, 0, 0⟩).y
            + (ts.getD i ⟨0, 0, 0⟩).z
        < 3 * (isrRun b ts).capture (b.position + i) + 3
    ∧ (∀ k, i < k → k ≤ ts.length →
        (isrRun b (ts.take k)).capture (b.position + i)
          = (isrRun b ts).capture (b.position + i)) := by
  have hmap : (ts.map fun t => (((t.x + t.y + t.z) / 3 : Nat) : Int)).length
      = ts.length := by simp
  obtain ⟨h1, h2⟩ := writeAll_spec (ts.map fun t => (((t.x + t.y + t.z) / 3 : Nat) : Int)) b
    (by rw [hmap]; exact h)
  have hval : (isrRun b ts).capture (b.position + i)
      = ((((ts.getD i ⟨0, 0, 0⟩).x + (ts.getD i ⟨0, 0, 0⟩).y
          + (ts.getD i ⟨0, 0, 0⟩).z) / 3 : Nat) : Int) := by
    rw [isrRun_eq_writeAll]
    have := h2 (b.position + i)
    rw [if_pos (by rw [hmap]; omega)] at this
    rw [this]
    have hi2 : i < (ts.map fun t => (((t.x + t.y + t.z) / 3 : Nat) : Int)).length := by
      rw [hmap]; exact hi
    rw [Nat.add_sub_cancel_left, List.getD_eq_getElem _ _ hi2, List.getElem_map,
      List.getD_eq_getElem ts ⟨0, 0, 0⟩ hi]
  refine ⟨hval, ?_, ?_, ?_⟩
  · rw [hval]
    omega
  · rw [hval]
    omega
  · intro k hik hk
    rw [hval, isrRun_eq_writeAll]
    have hmapk : ((ts.take k).map fun t => (((t.x + t.y + t.z) / 3 : Nat) : Int))
        = (ts.map fun t => (((t.x + t.y + t.z) / 3 : Nat) : Int)).take k := by
      rw [List.map_take]
    rw [hmapk]
    obtain ⟨g1, g2⟩ := writeAll_spec
      ((ts.map fun t => (((t.x + t.y + t.z) / 3 : Nat) : Int)).take k) b
      (by simp [hmap]; omega)
    have := g2 (b.position + i)
    rw [if_pos (by simp [hmap]; omega)] at this
    rw [this, Nat.add_sub_cancel_left]
    have hi3 : i < ((ts.map fun t => (((t.x + t.y + t.z) / 3 : Nat) : Int)).take k).length := by
      simp [hmap]; omega
    have hi2 : i < (ts.map fun t => (((t.x + t.y + t.z) / 3 : Nat) : Int)).length := by
      rw [hmap]; omega
    rw [List.getD_eq_getElem _ _ hi3, List.getElem_take, List.getElem_map,
      List.getD_eq_getElem ts ⟨0, 0, 0⟩ hi]

/-- Concrete instance of the amended C8: two ticks with readings
(3,4,5) and (1,2,3) store 4 and 2, and the first cell is unchanged by
the second tick. -/
theorem c8_floor_mean_witness :
    ((0:Nat) + 2 ≤ FFT_N)
    ∧ (isrRun ⟨0, fun _ => 0⟩ [⟨3, 4, 5⟩, ⟨1, 2, 3⟩]).capture 0 = 4
    ∧ (isrRun ⟨0, fun _ => 0⟩ [(⟨3, 4, 5⟩ : RawTick)]).capture 0
        = (isrRun ⟨0, fun _ => 0⟩ [⟨3, 4, 5⟩, ⟨1, 2, 3⟩]).capture 0 := by
  have h := c8_floor_mean ⟨0, fun _ => 0⟩ [⟨3, 4, 5⟩, ⟨1, 2, 3⟩] (by decide) 0 (by decide)
  refine ⟨by decide, ?_, ?_⟩
  · simpa using h.1
  · simpa using h.2.2.2 1 (by decide) (by decide)

/-! ## C1 — escalation timing of an uninterrupted exceedance -/

theorem monStep_esc_base (st0 : MonState) (h1 : st0.mon_thresh_exceeded = false)
    (h2 : st0.mon_warn_state = false) (h3 : st0.mon_alarm_state = false)
    (e t0 ns : Nat) (he : mon_thresh ≤ e) :
    monStep st0 e t0 ns = escState st0 t0 t0 := by
  obtain ⟨a, b, c, d, tm, ll⟩ := st0
  simp only at h1 h2 h3
  subst h1; subst h2; subst h3
  simp [monStep, monStepR, he, usub32_self, escState, mon_warn_millis,
    mon_alarm_millis]

theorem monStep_esc_step (st0 : MonState) (t0 t t2 ns e : Nat)
    (h0 : t0 ≤ t) (ht : t ≤ t2) (h2M : t2 < u32Mod) (he : mon_thresh ≤ e) :
    monStep (escState st0 t0 t) e t2 ns = escState st0 t0 t2 := by
  have hsub : usub32 t2 t0 = t2 - t0 := usub32_eq_sub (le_trans h0 ht) h2M
  obtain ⟨a, b, c, d, tm, ll⟩ := st0
  simp only [monStep, monStepR, escState, he, if_true, if_pos, mon_warn_millis,
    mon_alarm_millis]
  rw [hsub]
  by_cases hA : 5000 ≤ t2 - t0
  · have hw2 : decide (2000 ≤ t2 - t0 ∧ t2 - t0 < 5000) = false := by
      rw [decide_eq_false_iff_not]; omega
    have ha2 : decide (5000 ≤ t2 - t0) = true := by
      rw [decide_eq_true_eq]; exact hA
    rw [if_pos hA]
    simp [hw2, ha2]
  · rw [if_neg hA]
    by_cases hW : 2000 ≤ t2 - t0
    · have hw2 : decide (2000 ≤ t2 - t0 ∧ t2 - t0 < 5000) = true := by
        rw [decide_eq_true_eq]; omega
      have ha1 : decide (5000 ≤ t - t0) = false := by
        rw [decide_eq_false_iff_not]; omega
      have ha2 : decide (5000 ≤ t2 - t0) = false := by
        rw [decide_eq_false_iff_not]; exact hA
      rw [if_pos hW]
      simp [hw2, ha1, ha2]
    · have hw1 : decide (2000 ≤ t - t0 ∧ t - t0 < 5000) = false := by
        rw [decide_eq_false_iff_not]; omega
      have hw2 : decide (2000 ≤ t2 - t0 ∧ t2 - t0 < 5000) = false := by
        rw [decide_eq_false_iff_not]; omega
      have ha1 : decide (5000 ≤ t - t0) = false := by
        rw [decide_eq_false_iff_not]; omega
      have ha2 : decide (5000 ≤ t2 - t0) = false := by
        rw [decide_eq_false_iff_not]; exact hA
      rw [if_neg hW]
      simp [hw1, hw2, ha1, ha2]

theorem alarmStateOf_esc (st0 : MonState) (t0 t : Nat) :
    alarmStateOf (escState st0 t0 t) =
      (if mon_alarm_millis ≤ t - t0 then AlarmState.Alarm
       else if mon_warn_millis ≤ t - t0 then AlarmState.Warning
       else AlarmState.PreAlarm) := by
  simp only [alarmStateOf, escState, mon_warn_millis, mon_alarm_millis]
  by_cases hA : 5000 ≤ t - t0
  · simp [hA]
  · by_cases hW : 2000 ≤ t - t0
    · have hlt : t - t0 < 5000 := by omega
      simp [hA, hW, hlt]
    · simp [hA, hW]

theorem escRun : ∀ (ws : List WindowIn) (st0 : MonState) (t0 tl : Nat),
    t0 ≤ tl →
    (∀ w ∈ ws, mon_thresh ≤ w.maxChan ∧ w.ms < u32Mod) →
    List.Chain (fun a b => a ≤ b) tl (ws.map WindowIn.ms) →
    ∀ k (hk : k < ws.length),
      monRun (escState st0 t0 tl) (ws.take (k + 1))
        = escState st0 t0 ((ws.get ⟨k, hk⟩).ms) := by
  intro ws
  induction ws with
  | nil =>
      intro st0 t0 tl _ _ _ k hk
      exact absurd hk (by simp)
  | cons w ws ih =>
      intro st0 t0 tl h0 hall hchain k hk
      rw [List.map_cons, List.chain_cons] at hchain
      obtain ⟨hle, hchain2⟩ := hchain
      have hw := hall w (List.mem_cons_self w ws)
      have hstep : monStep (escState st0 t0 tl) w.maxChan w.ms w.nowS
          = escState st0 t0 w.ms :=
        monStep_esc_step st0 t0 tl w.ms w.nowS w.maxChan h0 hle hw.2 hw.1
      cases k with
      | zero =>
          simp only [List.take_succ_cons, List.take_zero, monRun, hstep]
          rfl
      | succ k =>
          have hk2 : k < ws.length := by simpa using hk
          simp only [List.take_succ_cons, monRun, hstep]
          exact ih st0 t0 w.ms (le_trans h0 hle)
            (fun x hx => hall x (List.mem_cons_of_mem w hx)) hchain2 k hk2

/-- Claim C1: starting from an Idle engine (no flags set) and feeding
windows whose band maximum stays at or above the threshold with
non-decreasing `millis()` readings, the state after the first window
is PreAlarm (so PreAlarm is never skipped), and after every later
window it is Warning exactly when the elapsed time since the first
exceedance is at least 2000 ms and below 5000 ms, and Alarm exactly
when it is at least 5000 ms. -/
theorem c1_escalation_timing (st0 : MonState) (w0 : WindowIn) (ws : List WindowIn)
    (h1 : st0.mon_thresh_exceeded = false) (h2 : st0.mon_warn_state = false)
    (h3 : st0.mon_alarm_state = false)
    (h0c : mon_thresh ≤ w0.maxChan) (h0m : w0.ms < u32Mod)
    (hall : ∀ w ∈ ws, mon_thresh ≤ w.maxChan ∧ w.ms < u32Mod)
    (hchain : List.Chain (fun a b => a ≤ b) w0.ms (ws.map WindowIn.ms)) :
    ∀ k (hk : k < (w0 :: ws).length),
      alarmStateOf (monRun st0 ((w0 :: ws).take (k + 1)))
        = (if mon_alarm_millis ≤ ((w0 :: ws).get ⟨k, hk⟩).ms - w0.ms
           then AlarmState.Alarm
           else if mon_warn_millis ≤ ((w0 :: ws).get ⟨k, hk⟩).ms - w0.ms
           then AlarmState.Warning
           else AlarmState.PreAlarm) := by
  have hbase : monStep st0 w0.maxChan w0.ms w0.nowS = escState st0 w0.ms w0.ms :=
    monStep_esc_base st0 h1 h2 h3 w0.maxChan w0.ms w0.nowS h0c
  intro k hk
  cases k with
  | zero =>
      simp only [List.take_succ_cons, List.take_zero, monRun, hbase]
      rw [alarmStateOf_esc]
      rfl
  | succ k =>
      have hk2 : k < ws.length := by simpa using hk
      simp only [List.take_succ_cons, monRun, hbase]
      rw [escRun ws st0 w0.ms w0.ms le_rfl hall hchain k hk2]
      rw [alarmStateOf_esc]
      rfl

set_option maxRecDepth 8192 in
/-- Concrete instance of C1: threshold held from `millis() = 1000`,
the engine is PreAlarm at once, Warning 2500 ms later, Alarm 5500 ms
later. -/
theorem c1_escalation_timing_witness :
    alarmStateOf (monRun (initMonState 0) [⟨9, 1000, 50⟩]) = AlarmState.PreAlarm
    ∧ alarmStateOf (monRun (initMonState 0) [⟨9, 1000, 50⟩, ⟨8, 3500, 52⟩])
        = AlarmState.Warning
    ∧ alarmStateOf (monRun (initMonState 0)
        [⟨9, 1000, 50⟩, ⟨8, 3500, 52⟩, ⟨12, 6500, 55⟩]) = AlarmState.Alarm := by
  have h := c1_escalation_timing (initMonState 0) ⟨9, 1000, 50⟩
    [⟨8, 3500, 52⟩, ⟨12, 6500, 55⟩] rfl rfl rfl (by decide) (by decide)
    (by decide)
    (List.Chain.cons (by decide) (List.Chain.cons (by decide) List.Chain.nil))
  refine ⟨?_, ?_, ?_⟩
  · simpa [mon_warn_millis, mon_alarm_millis] using h 0 (by decide)
  · simpa [mon_warn_millis, mon_alarm_millis] using h 1 (by decide)
  · simpa [mon_warn_millis, mon_alarm_millis] using h 2 (by decide)

/-! ## C9 — storage failure does not perturb the pipeline -/

/-- Claim C9: for any spectral transform, any system state and any
window, the alarm globals, the capture buffer and the buzzer level
produced by one full-buffer loop iteration are identical whether the
SD-card write succeeds or fails — a storage failure is logged (the
error counter grows) and everything else proceeds as if the write had
succeeded; `error_P` itself cannot halt (its halt loop is commented
out in the source), and the model is a total function. -/
theorem c9_storage_failure_harmless (ok1 ok2 : Bool)
    (fft : (Nat → Int) → Nat → Nat) (ss : SysState) (ms nowS : Nat) :
    (loopBody ok1 fft ss ms nowS).mon = (loopBody ok2 fft ss ms nowS).mon
    ∧ (loopBody ok1 fft ss ms nowS).buf = (loopBody ok2 fft ss ms nowS).buf
    ∧ alertLevel (loopBody ok1 fft ss ms nowS).mon
        = alertLevel (loopBody ok2 fft ss ms nowS).mon := by
  by_cases hfull : ss.buf.position = FFT_N
  · simp only [loopBody, hfull, if_true]
    by_cases hlog : shouldLog (monStep ss.mon (maxChanOf (fft ss.buf.capture)) ms nowS) ms
    · cases ok1 <;> cases ok2 <;> simp [hlog]
    · simp [hlog]
  · simp [loopBody, hfull]

